import Mathlib

/-!
Shallow embedding of the Fireblocks custody-examples core:
the EIP-712 signing adapter (FireblocksEip712Signer.ts), its signature
normalizer and polling loop, the transaction lifecycle monitor
(monitor.ts), the typed-data envelope builder and the audit-note
annotator.  JavaScript strings are modelled as Lean strings,
JavaScript truthiness of optional strings is made explicit, and
thrown exceptions are modelled as explicit error results.
-/

set_option maxRecDepth 100000

namespace FbCustody

/-- Truthiness of a possibly-absent JavaScript string: undefined and
the empty string are falsy. -/
def truthyOpt : Option String → Bool
  | none => false
  | some s => s != ""

/-- Value of a possibly-absent JavaScript string coerced with a falsy
fallback, modelling the idiom value-or-default. -/
def orDefaultStr (o : Option String) (d : String) : String :=
  match o with
  | none => d
  | some s => if s == "" then d else s

/-- Value of an optional string defaulted to the empty string,
modelling the idiom value-or-empty. -/
def jsOr (o : Option String) : String :=
  match o with
  | none => ""
  | some s => s

/-- Left padding with a fill character up to a target length,
modelling String.prototype.padStart. -/
def padStart (s : String) (n : Nat) (c : Char) : String :=
  String.mk (List.replicate (n - s.length) c) ++ s

/-- Hex rendering of a natural number in lowercase, modelling
Number.prototype.toString with radix 16 on a non-negative value. -/
def natToHex (n : Nat) : String :=
  String.mk (Nat.toDigits 16 n)

/-- Test for a leading 0x, modelling startsWith applied to the 0x
literal at the character level. -/
def startsWith0x (s : String) : Bool :=
  match s.data with
  | '0' :: 'x' :: _ => true
  | _ => false

/-- Helper of the adapter: prefix a hex string with 0x when the prefix
is missing (ensureHexWith0x in the source). -/
def ensureHexWith0x (value : String) : String :=
  if startsWith0x value then value else "0x" ++ value

/-- Helper of the adapter: drop a leading 0x when present (strip0x in
the source), written at the character level. -/
def strip0x (value : String) : String :=
  match value.data with
  | '0' :: 'x' :: rest => String.mk rest
  | _ => value

/-- Hex digit predicate used by the parseInt model. -/
def isHexDigitChar (c : Char) : Bool :=
  c.isDigit || (decide ('a' ≤ c) && decide (c ≤ 'f')) || (decide ('A' ≤ c) && decide (c ≤ 'F'))

/-- Numeric value of one hex digit. -/
def hexDigitVal (c : Char) : Nat :=
  if c.isDigit then c.toNat - 48
  else if 'a' ≤ c then c.toNat - 87
  else c.toNat - 55

/-- Decimal parse of the maximal leading digit run, none when there is
no leading digit, modelling parseInt with radix 10 (NaN becomes none). -/
def parseDecNat (s : String) : Option Nat :=
  let ds := s.data.takeWhile Char.isDigit
  if ds.isEmpty then none
  else some (ds.foldl (fun a c => 10 * a + (c.toNat - 48)) 0)

/-- Hex parse of the maximal leading hex-digit run, none when there is
no leading hex digit, modelling parseInt with radix 16 after its
optional 0x prefix has been dropped. -/
def parseHexNat (s : String) : Option Nat :=
  let ds := s.data.takeWhile isHexDigitChar
  if ds.isEmpty then none
  else some (ds.foldl (fun a c => 16 * a + hexDigitVal c) 0)

/-- Recovery-id field of a raw signature object: a string, a number,
or absent. -/
inductive VField
  | vstr (s : String)
  | vnum (n : Nat)
  | vabsent
deriving DecidableEq, Repr

/-- Raw signature value found under the signature key of a signed
message entry: a plain hex string, or an object exposing an optional
combined fullSig field and optional r, s, v components. -/
inductive SigVal
  | hexStr (s : String)
  | obj (fullSig : Option String) (r : Option String) (s : Option String) (v : VField)
deriving DecidableEq, Repr

/-- Container entry of signedMessages as returned by the custody API. -/
structure SignedMessageEntry where
  signature : Option SigVal
deriving DecidableEq, Repr

/-- Result of the normalizer: a returned string, a null return, or a
thrown error carrying its message. -/
inductive NormResult
  | ok (s : String)
  | nullRes
  | err (msg : String)
deriving DecidableEq, Repr

/-- Explicit v determination of the r/s/v case of the normalizer:
a string v is parsed as hex when 0x-prefixed and as decimal otherwise,
a numeric v is used as given, and an absent or unparseable v defaults
to 27 (lines 296-310 of FireblocksEip712Signer.ts). -/
def parseVField : VField → Nat
  | .vnum n => n
  | .vabsent => 27
  | .vstr s =>
      let p :=
        match s.data with
        | '0' :: 'x' :: rest => parseHexNat (String.mk rest)
        | _ => parseDecNat s
      p.getD 27

/-- Case 1 and case 2 of the normalizer: a hex string (the signature
itself or its fullSig field) is 0x-prefixed; when the result has 130
characters (64 bytes) the default recovery byte 1b is appended,
otherwise the value is returned as is. -/
def hexCase (s : String) : NormResult :=
  let normalized := ensureHexWith0x s
  if normalized.length = 130 then .ok (normalized ++ "1b") else .ok normalized

/-- Case 3 of the normalizer: explicit r and s are left padded to 32
bytes, v is resolved by parseVField and rendered in hex, and the
combined value must measure exactly 132 characters or an error naming
the expected and actual lengths is thrown. -/
def rsvCase (r s : Option String) (v : VField) : NormResult :=
  let rp := padStart (strip0x (jsOr r)) 64 '0'
  let sp := padStart (strip0x (jsOr s)) 64 '0'
  let vNum := parseVField v
  let vHex := padStart (natToHex vNum) 2 '0'
  let combined := "0x" ++ rp ++ sp ++ vHex
  if combined.length ≠ 132 then
    .err ("Invalid signature length: expected 132 chars (0x + 130 hex), got "
      ++ toString combined.length ++ ". Signature: " ++ combined)
  else .ok combined

/-- Normalizer of the adapter (normalizeSignatureFromFireblocks):
a falsy entry or an unrecognized shape yields null; a string signature
or a string fullSig goes through the hex case; an object with a truthy
r or s goes through the r/s/v case. -/
def normalizeSignatureFromFireblocks : Option SignedMessageEntry → NormResult
  | none => .nullRes
  | some entry =>
    match entry.signature with
    | none => .nullRes
    | some (.hexStr s) => hexCase s
    | some (.obj fullSig r s v) =>
      match fullSig with
      | some f => hexCase f
      | none =>
        if truthyOpt r || truthyOpt s then rsvCase r s v else .nullRes

/-- Custody transaction statuses of the Fireblocks state machine
(TransactionStateEnum values used by the repository). -/
inductive TStatus
  | submitted
  | queued
  | pendingSignature
  | pendingAuthorization
  | broadcasting
  | confirming
  | completed
  | failed
  | rejected
  | cancelled
  | blocked
deriving DecidableEq, Repr

/-- Lowercase rendering of a status, modelling toLowerCase on the
wire value of the status enum. -/
def statusLower : TStatus → String
  | .submitted => "submitted"
  | .queued => "queued"
  | .pendingSignature => "pending_signature"
  | .pendingAuthorization => "pending_authorization"
  | .broadcasting => "broadcasting"
  | .confirming => "confirming"
  | .completed => "completed"
  | .failed => "failed"
  | .rejected => "rejected"
  | .cancelled => "cancelled"
  | .blocked => "blocked"

/-- Membership in TERMINAL_STATES of monitor.ts: completed, failed,
rejected, cancelled, blocked. -/
def isTerminalState : TStatus → Bool
  | .completed => true
  | .failed => true
  | .rejected => true
  | .cancelled => true
  | .blocked => true
  | _ => false

/-- Failure subset of the terminal states checked by monitor.ts. -/
def isFailureState : TStatus → Bool
  | .failed => true
  | .rejected => true
  | .cancelled => true
  | .blocked => true
  | _ => false

/-- Transaction data returned by one getTransaction poll of the
signing adapter. -/
structure TxInfo where
  status : TStatus
  subStatus : Option String
  systemMessages : Option (List String)
  signedMessages : Option (List (Option SignedMessageEntry))
deriving DecidableEq, Repr

/-- Outcome of one poll network call: a thrown fetch error with its
details, or transaction data. -/
inductive PollResponse
  | fetchError (details : String)
  | ok (info : TxInfo)
deriving DecidableEq, Repr

/-- Result of the polling loop of the signing adapter: a normalized
signature, one of the thrown error shapes, or the timeout. -/
inductive SignOutcome
  | signature (s : String)
  | noSignedMessages
  | invalidFormat
  | formatError (msg : String)
  | rejected (msg : String)
  | timeout (seconds : Nat)
deriving DecidableEq, Repr

/-- Suffix appended to a rejection message when systemMessages is a
nonempty array, joined by semicolon separators. -/
def sysSuffix : Option (List String) → String
  | some (x :: xs) => " | systemMessages: " ++ String.intercalate "; " (x :: xs)
  | _ => ""

/-- Rejection message of the polling loop for a failure status,
carrying the sub-status (or its default) and the system messages. -/
def rejectionMsg (info : TxInfo) : String :=
  "Transaction " ++ statusLower info.status ++ ": "
    ++ orDefaultStr info.subStatus "No subStatus" ++ sysSuffix info.systemMessages

/-- Decision taken by one iteration of pollForSignature on one poll
response: none means the loop continues (a caught fetch error or a
non-handled status, including rejected), some is the value returned or
thrown.  Mirrors lines 152-199 of FireblocksEip712Signer.ts. -/
def stepOutcome : PollResponse → Option SignOutcome
  | .fetchError _ => none
  | .ok info =>
    match info.status with
    | .completed =>
      match info.signedMessages with
      | none => some .noSignedMessages
      | some [] => some .noSignedMessages
      | some (entry :: _) =>
        match normalizeSignatureFromFireblocks entry with
        | .ok sgn => some (.signature sgn)
        | .nullRes => some .invalidFormat
        | .err m => some (.formatError m)
    | .failed => some (.rejected (rejectionMsg info))
    | .cancelled => some (.rejected (rejectionMsg info))
    | .blocked => some (.rejected (rejectionMsg info))
    | _ => none

/-- Poll interval of the signing adapter in milliseconds. -/
def pollIntervalMs : Nat := 5000

/-- Attempt budget of the signing adapter. -/
def maxAttempts : Nat := 120

/-- Elapsed bound named by the timeout message, in seconds. -/
def timeoutSeconds : Nat := maxAttempts * pollIntervalMs / 1000

/-- Polling loop of the signing adapter over a stream of poll
responses, with remaining fuel and the index of the next attempt;
returns the outcome together with the number of attempts performed. -/
def pollAux (resp : Nat → PollResponse) : Nat → Nat → SignOutcome × Nat
  | 0, i => (.timeout timeoutSeconds, i)
  | fuel + 1, i =>
    match stepOutcome (resp i) with
    | some o => (o, i + 1)
    | none => pollAux resp fuel (i + 1)

/-- Outcome of pollForSignature with the default budget of 120
attempts at the 5 second interval. -/
def pollForSignature (resp : Nat → PollResponse) : SignOutcome :=
  (pollAux resp maxAttempts 0).1

/-- Number of poll attempts performed by pollForSignature. -/
def pollAttemptCount (resp : Nat → PollResponse) : Nat :=
  (pollAux resp maxAttempts 0).2

/-- Poll response whose status is a non-terminal custody state (or a
caught fetch error), so the sequence has not reached a terminal
state. -/
def nonTerminalResp : PollResponse → Bool
  | .fetchError _ => true
  | .ok info => !(isTerminalState info.status)

/-- Generic pending transaction data used to compare a transient fetch
error with an ordinary non-terminal poll. -/
def pendingTx : TxInfo :=
  { status := .submitted, subStatus := none, systemMessages := none, signedMessages := none }

/-- EIP-712 field descriptor. -/
structure TypedDataField where
  name : String
  type : String
deriving DecidableEq, Repr

/-- EIP-712 domain with the five optional members read by the
adapter. -/
structure TypedDataDomain where
  name : Option String
  version : Option String
  chainId : Option Int
  verifyingContract : Option String
  salt : Option String
deriving DecidableEq, Repr

/-- Domain-type descriptor synthesized by buildTypedDataObject: one
push per populated domain member, in source order name, version,
chainId, verifyingContract, salt. -/
def synthesizedDomainType (d : TypedDataDomain) : List TypedDataField :=
  (if d.name.isSome then [⟨"name", "string"⟩] else [])
    ++ (if d.version.isSome then [⟨"version", "string"⟩] else [])
    ++ (if d.chainId.isSome then [⟨"chainId", "uint256"⟩] else [])
    ++ (if d.verifyingContract.isSome then [⟨"verifyingContract", "address"⟩] else [])
    ++ (if d.salt.isSome then [⟨"salt", "bytes32"⟩] else [])

/-- Modelled from the spec: the synthesized domain descriptor contains
exactly the populated domain fields, in the fixed order name, version,
chainId, verifyingContract, salt, with absent fields omitted.  Used to
compare the source builder against the specified shape. -/
def specDomainDescriptor (d : TypedDataDomain) : List TypedDataField :=
  ([(⟨"name", "string"⟩, d.name.isSome),
    (⟨"version", "string"⟩, d.version.isSome),
    (⟨"chainId", "uint256"⟩, d.chainId.isSome),
    (⟨"verifyingContract", "address"⟩, d.verifyingContract.isSome),
    (⟨"salt", "bytes32"⟩, d.salt.isSome)] : List (TypedDataField × Bool)).filterMap
    (fun p => if p.2 then some p.1 else none)

/-- Order entry of a Hyperliquid message action. -/
structure HlOrder where
  isBuy : Option Bool
  coin : Option String
  sz : Option String
deriving DecidableEq, Repr

/-- Action member of a Hyperliquid message. -/
structure HlAction where
  type : Option String
  orders : Option (List HlOrder)
  amount : Option String
  usd : Option String
deriving DecidableEq, Repr

/-- Message payload as inspected by the annotator. -/
structure HlMessage where
  action : Option HlAction
deriving DecidableEq, Repr

/-- Typed-data envelope returned by buildTypedDataObject. -/
structure TypedDataObject where
  types : List (String × List TypedDataField)
  domain : TypedDataDomain
  primaryType : String
  message : HlMessage
deriving DecidableEq, Repr

/-- Envelope builder of the adapter (buildTypedDataObject): the
EIP712Domain descriptor is synthesized and appended only when the type
schema has none, and the primary type is the first key different from
EIP712Domain, defaulting to EIP712Domain. -/
def buildTypedDataObject (domain : TypedDataDomain)
    (types : List (String × List TypedDataField)) (message : HlMessage) : TypedDataObject :=
  let domainType := synthesizedDomainType domain
  let typesWithDomain :=
    if (types.lookup "EIP712Domain").isSome then types
    else types ++ [("EIP712Domain", domainType)]
  let primaryType :=
    orDefaultStr ((typesWithDomain.map Prod.fst).find? (fun t => t != "EIP712Domain"))
      "EIP712Domain"
  ⟨typesWithDomain, domain, primaryType, message⟩

/-- Message of the TypeError thrown by reading a member of an
undefined first order. -/
def orderIndexError : String :=
  "TypeError: cannot read properties of undefined"

/-- Annotator of the adapter (generateTransactionNote), with the
JavaScript exception made explicit: when the action type is order and
the orders member is a present but empty array, indexing its first
element yields undefined and reading isBuy throws. -/
def generateTransactionNote (domain : TypedDataDomain) (message : HlMessage) :
    Except String String :=
  let domainName := orDefaultStr domain.name "Unknown"
  match message.action with
  | some action =>
    if action.type == some "order" && action.orders.isSome then
      match (action.orders.getD []).head? with
      | none => .error orderIndexError
      | some order =>
        let side := if order.isBuy == some true then "buy" else "sell"
        let coin := orDefaultStr order.coin "unknown"
        let size := orDefaultStr order.sz "unknown"
        .ok ("HL order: " ++ coin ++ " " ++ side ++ " " ++ size)
    else if action.type == some "withdraw3" || action.type == some "withdraw" then
      .ok ("HL withdrawal: " ++ orDefaultStr action.amount (orDefaultStr action.usd "unknown")
        ++ " USDC")
    else .ok ("HL EIP-712 signature: " ++ domainName)
  | none => .ok ("HL EIP-712 signature: " ++ domainName)

/-- Address entry returned by the paginated vault addresses query. -/
structure AddressEntry where
  address : Option String
deriving DecidableEq, Repr

/-- Data member of the vault addresses response. -/
structure VaAddressesData where
  addresses : Option (List AddressEntry)
deriving DecidableEq, Repr

/-- Outcome of the vault addresses query: a thrown failure with its
message, or response data. -/
inductive AddrQueryResult
  | failure (msg : String)
  | success (data : VaAddressesData)
deriving DecidableEq, Repr

/-- Mutable state of the signer instance: its cached address member. -/
structure SignerState where
  address : Option String
deriving DecidableEq, Repr

/-- Result of one getAddress call: the returned or thrown value, the
state left behind, and whether an address query was issued. -/
structure AddressCallResult where
  outcome : Except String String
  state : SignerState
  queried : Bool
deriving Repr

/-- Wrapper applied by the catch block of getAddress. -/
def wrapAddrError (m : String) : String :=
  "Failed to derive address from Fireblocks: " ++ m

/-- Message thrown when the query returns no addresses. -/
def noAddrMsg (vaultAccountId : String) : String :=
  "No ETH addresses found for vault account " ++ vaultAccountId
    ++ ". Ensure ETH asset is activated in Fireblocks."

/-- Message thrown when the first address has no value. -/
def emptyAddrMsg (vaultAccountId : String) : String :=
  "ETH address exists but has no value for vault " ++ vaultAccountId

/-- Identity resolution of the adapter (getAddress, lines 48-78 of
FireblocksEip712Signer.ts): a truthy cached address is returned
without a query; otherwise the paginated addresses query runs, an
empty result throws, the first address is assigned to the cache before
its truthiness check, and a falsy assigned value throws. -/
def getAddress (vaultAccountId : String) (st : SignerState) (q : AddrQueryResult) :
    AddressCallResult :=
  if truthyOpt st.address then
    ⟨.ok (jsOr st.address), st, false⟩
  else
    match q with
    | .failure m => ⟨.error (wrapAddrError m), st, true⟩
    | .success data =>
      match data.addresses with
      | none => ⟨.error (wrapAddrError (noAddrMsg vaultAccountId)), st, true⟩
      | some [] => ⟨.error (wrapAddrError (noAddrMsg vaultAccountId)), st, true⟩
      | some (e :: _) =>
        let st2 : SignerState := ⟨e.address⟩
        if truthyOpt st2.address then ⟨.ok (jsOr st2.address), st2, true⟩
        else ⟨.error (wrapAddrError (emptyAddrMsg vaultAccountId)), st2, true⟩

/-- Transaction data returned by one getTransaction poll of the
monitor. -/
structure TxPoll where
  status : TStatus
  txHash : Option String
deriving DecidableEq, Repr

/-- Result of phase 1 of the monitor: the terminal status, the last
captured hash, and whether the terminal state is a failure. -/
structure Phase1Result where
  status : TStatus
  txHash : Option String
  failed : Bool
deriving DecidableEq, Repr

/-- Hash capture of the monitor loop: the hash is recorded the first
time a truthy value appears and never overwritten. -/
def captureHash (old : Option String) (new : Option String) : Option String :=
  if truthyOpt new && !(truthyOpt old) then new else old

/-- Phase 1 loop of monitorTransaction (lines 60-94 of monitor.ts)
observed for a bounded number of iterations: the source loop is an
unbounded while-true, so the fuel argument models how many poll
iterations are watched; none means the loop is still running after
that many polls. -/
def monitorPhase1 (resp : Nat → TxPoll) : Nat → Nat → Option String → Option Phase1Result
  | 0, _, _ => none
  | fuel + 1, i, hash =>
    let tx := resp i
    let hash2 := captureHash hash tx.txHash
    if isTerminalState tx.status then
      some ⟨tx.status, hash2, isFailureState tx.status⟩
    else monitorPhase1 resp fuel (i + 1) hash2

/-- Receipt of a mined transaction as read by phase 2. -/
structure ChainReceipt where
  blockNumber : Int
deriving DecidableEq, Repr

/-- Outcome of the chain queries of phase 2: a thrown error, a null
receipt, or a mined receipt together with the current block height. -/
inductive ChainQueryOutcome
  | threw (msg : String)
  | noReceipt
  | mined (receipt : ChainReceipt) (currentBlock : Int)
deriving DecidableEq, Repr

/-- Terminal output of monitorTransaction. -/
structure MonitorResult where
  id : String
  status : TStatus
  txHash : Option String
  blockNumber : Option Int
  confirmations : Option Int
  error : Option String
deriving DecidableEq, Repr

/-- Phase 2 of monitorTransaction (lines 97-135 of monitor.ts): a
thrown chain query is reported as an on-chain monitoring failure, a
missing receipt as a not-found error, and a mined receipt yields
confirmations computed as currentBlock minus the mined block height
plus one. -/
def monitorPhase2 (txId : String) (currentStatus : TStatus) (txHash : String)
    (_waitForConfirmations : Nat) (chain : ChainQueryOutcome) : MonitorResult :=
  match chain with
  | .threw m =>
    ⟨txId, currentStatus, some txHash, none, none, some ("On-chain monitoring failed: " ++ m)⟩
  | .noReceipt =>
    ⟨txId, currentStatus, some txHash, none, none, some "Transaction receipt not found"⟩
  | .mined receipt currentBlock =>
    let confirmations := currentBlock - receipt.blockNumber + 1
    ⟨txId, currentStatus, some txHash, some receipt.blockNumber, some confirmations, none⟩

/-! Helper lemmas shared by the claims. -/

lemma padStart_of_length (s : String) (n : Nat) (c : Char) (h : s.length = n) :
    padStart s n c = s := by
  unfold padStart
  rw [h, Nat.sub_self]
  cases s with
  | mk data => rfl

lemma strip0x_of_no0x (s : String) (h : startsWith0x s = false) : strip0x s = s := by
  unfold startsWith0x at h
  unfold strip0x
  split
  · rename_i heq
    rw [heq] at h
    simp at h
  · rfl

lemma truthyOpt_some_of_ne (s : String) (h : s ≠ "") : truthyOpt (some s) = true := by
  simp [truthyOpt, h]

lemma ne_empty_of_length (s : String) (n : Nat) (hn : n ≠ 0) (h : s.length = n) : s ≠ "" := by
  intro e
  rw [e] at h
  exact hn h.symm

lemma rsvCase_concrete (r s : String) (hr : r.length = 64) (hs : s.length = 64)
    (hr0 : startsWith0x r = false) (hs0 : startsWith0x s = false)
    (v : VField) (vh : String)
    (hv : padStart (natToHex (parseVField v)) 2 '0' = vh) (hvh : vh.length = 2) :
    normalizeSignatureFromFireblocks (some ⟨some (.obj none (some r) (some s) v)⟩)
      = .ok ("0x" ++ r ++ s ++ vh) := by
  have hrne : r ≠ "" := ne_empty_of_length r 64 (by decide) hr
  show (if (truthyOpt (some r) || truthyOpt (some s)) = true
      then rsvCase (some r) (some s) v else NormResult.nullRes) = _
  rw [truthyOpt_some_of_ne r hrne]
  simp only [Bool.true_or, if_true]
  unfold rsvCase
  simp only [jsOr, strip0x_of_no0x r hr0, strip0x_of_no0x s hs0,
    padStart_of_length r 64 '0' hr, padStart_of_length s 64 '0' hs, hv]
  have hlen : ("0x" ++ r ++ s ++ vh).length = 132 := by
    simp [String.length_append, hr, hs, hvh]
    rfl
  rw [if_neg (by rw [hlen]; exact fun hc => hc rfl)]

lemma hexCase_128 (f : String) (hf : f.length = 128) (hf0 : startsWith0x f = false) :
    hexCase f = .ok ("0x" ++ f ++ "1b") := by
  unfold hexCase ensureHexWith0x
  rw [hf0]
  simp only [Bool.false_eq_true, if_false]
  have hlen : ("0x" ++ f).length = 130 := by
    simp [String.length_append, hf]
    rfl
  rw [if_pos hlen]

/-- Hex string of 64 repeated 1 characters (the r value of the spec
scenario). -/
def ones64 : String := String.mk (List.replicate 64 '1')

/-- Hex string of 64 repeated 2 characters (the s value of the spec
scenario). -/
def twos64 : String := String.mk (List.replicate 64 '2')

/-- Signed message entry exposing explicit r, s and v components. -/
def rsvEntry (r s : String) (v : VField) : Option SignedMessageEntry :=
  some ⟨some (.obj none (some r) (some s) v)⟩

/-- C1 counterexample: on the spec scenario input with r of 32 bytes
of 11, s of 32 bytes of 22 and v equal to 1, the normalizer emits the
parsed v directly as the final byte 01 instead of mapping it to 28
(1c); the claimed output is not produced. -/
theorem normalizeSignature_v_not_mapped_cex :
    normalizeSignatureFromFireblocks (rsvEntry ("0x" ++ ones64) ("0x" ++ twos64) (.vnum 1))
        = .ok ("0x" ++ ones64 ++ twos64 ++ "01") ∧
      normalizeSignatureFromFireblocks (rsvEntry ("0x" ++ ones64) ("0x" ++ twos64) (.vnum 1))
        ≠ .ok ("0x" ++ ones64 ++ twos64 ++ "1c") := by
  constructor
  · rfl
  · decide

/-- C1 amended: in the r/s/v shape the normalizer parses v from
string, hex or number form and writes its value directly as the final
byte, so v equal to 1 yields 01 while 27 and 28 yield 1b and 1c; an
absent or unparseable v defaults to 27 (1b); and the combined
64-byte-field shape ignores v entirely, appending the default 1b. -/
theorem normalizeSignature_v_direct (r s f : String)
    (hr : r.length = 64) (hs : s.length = 64) (hf : f.length = 128)
    (hr0 : startsWith0x r = false) (hs0 : startsWith0x s = false)
    (hf0 : startsWith0x f = false) :
    normalizeSignatureFromFireblocks (rsvEntry r s (.vnum 1)) = .ok ("0x" ++ r ++ s ++ "01") ∧
      normalizeSignatureFromFireblocks (rsvEntry r s (.vnum 27)) = .ok ("0x" ++ r ++ s ++ "1b") ∧
      normalizeSignatureFromFireblocks (rsvEntry r s (.vnum 28)) = .ok ("0x" ++ r ++ s ++ "1c") ∧
      normalizeSignatureFromFireblocks (rsvEntry r s .vabsent) = .ok ("0x" ++ r ++ s ++ "1b") ∧
      normalizeSignatureFromFireblocks (rsvEntry r s (.vstr "bogus"))
        = .ok ("0x" ++ r ++ s ++ "1b") ∧
      normalizeSignatureFromFireblocks (some ⟨some (.obj (some f) none none (.vnum 1))⟩)
        = .ok ("0x" ++ f ++ "1b") := by
  refine ⟨?_, ?_, ?_, ?_, ?_, ?_⟩
  · exact rsvCase_concrete r s hr hs hr0 hs0 (.vnum 1) "01" rfl rfl
  · exact rsvCase_concrete r s hr hs hr0 hs0 (.vnum 27) "1b" rfl rfl
  · exact rsvCase_concrete r s hr hs hr0 hs0 (.vnum 28) "1c" rfl rfl
  · exact rsvCase_concrete r s hr hs hr0 hs0 .vabsent "1b" rfl rfl
  · exact rsvCase_concrete r s hr hs hr0 hs0 (.vstr "bogus") "1b" rfl rfl
  · exact hexCase_128 f hf hf0

/-- Combined 64-byte signature field used by the C1 witness. -/
def fullSig128 : String := ones64 ++ twos64

/-- C1 witness: the amended statement evaluated at concrete r, s and
combined-field inputs. -/
theorem normalizeSignature_v_direct_wit :
    normalizeSignatureFromFireblocks (rsvEntry ones64 twos64 (.vnum 28))
        = .ok ("0x" ++ ones64 ++ twos64 ++ "1c") ∧
      normalizeSignatureFromFireblocks (some ⟨some (.obj (some fullSig128) none none (.vnum 1))⟩)
        = .ok ("0x" ++ fullSig128 ++ "1b") :=
  ⟨(normalizeSignature_v_direct ones64 twos64 fullSig128 (by decide) (by decide) (by decide)
      (by decide) (by decide) (by decide)).2.2.1,
    (normalizeSignature_v_direct ones64 twos64 fullSig128 (by decide) (by decide) (by decide)
      (by decide) (by decide) (by decide)).2.2.2.2.2⟩

/-- C2 counterexample: a plain hex string input of 2 bytes is returned
0x-prefixed with 6 characters and no error, so not every returned
value has the 65-byte canonical length. -/
theorem normalizeSignature_passthrough_cex :
    normalizeSignatureFromFireblocks (some ⟨some (.hexStr "1234")⟩) = .ok "0x1234" ∧
      ("0x1234" : String).length ≠ 132 := by
  constructor
  · rfl
  · decide

/-- C2 amended: only the explicit r/s/v shape is length validated —
every value that path returns has exactly 0x plus 130 hex characters,
anything else being rejected with the error naming the expected and
actual lengths; the plain-hex and combined-field shapes return their
0x-prefixed input without length validation (beyond extending an
exact 64-byte value with the default v). -/
theorem normalizeSignature_rsv_length_valid (r s : Option String) (v : VField) (out : String)
    (h : normalizeSignatureFromFireblocks (some ⟨some (.obj none r s v)⟩) = .ok out) :
    out.length = 132 := by
  have h2 : (if (truthyOpt r || truthyOpt s) = true
      then rsvCase r s v else NormResult.nullRes) = .ok out := h
  by_cases hg : (truthyOpt r || truthyOpt s) = true
  · rw [if_pos hg] at h2
    unfold rsvCase at h2
    by_cases hl : ("0x" ++ padStart (strip0x (jsOr r)) 64 '0' ++ padStart (strip0x (jsOr s)) 64 '0'
        ++ padStart (natToHex (parseVField v)) 2 '0').length ≠ 132
    · rw [if_pos hl] at h2
      cases h2
    · rw [if_neg hl] at h2
      cases h2
      exact Classical.not_not.mp hl
  · rw [if_neg hg] at h2
    cases h2

/-- C2 witness: the r/s/v length theorem evaluated at a concrete
64-hex-character r and s with v equal to 27. -/
theorem normalizeSignature_rsv_length_valid_wit :
    normalizeSignatureFromFireblocks (rsvEntry ones64 twos64 (.vnum 27))
        = .ok ("0x" ++ ones64 ++ twos64 ++ "1b") ∧
      ("0x" ++ ones64 ++ twos64 ++ "1b").length = 132 :=
  ⟨by rfl,
    normalizeSignature_rsv_length_valid (some ones64) (some twos64) (.vnum 27)
      ("0x" ++ ones64 ++ twos64 ++ "1b") (by rfl)⟩

/-- Rejected transaction data used by the C3 counterexample. -/
def rejectedInfo : TxInfo :=
  { status := .rejected, subStatus := some "REJECTED_BY_USER", systemMessages := none,
    signedMessages := none }

/-- C3 counterexample: a poll iteration observing the terminal
rejected status does not fail with a rejection — the status is not in
the handled failure set, so the loop continues and a permanently
rejected transaction polls through the whole budget to a timeout. -/
theorem pollForSignature_rejected_cex :
    stepOutcome (.ok rejectedInfo) = none ∧
      pollForSignature (fun _ => .ok rejectedInfo) = .timeout 600 ∧
      pollAttemptCount (fun _ => .ok rejectedInfo) = 120 := by
  refine ⟨rfl, ?_, ?_⟩ <;> rfl

/-- C3 amended: a poll iteration observing one of the handled failure
statuses — failed, cancelled, or blocked — fails immediately with the
rejection error carrying the custody sub-status and the system
messages verbatim; the rejected status is not handled and polling
continues. -/
theorem pollForSignature_failure_statuses (resp : Nat → PollResponse) (info : TxInfo)
    (h0 : resp 0 = .ok info)
    (hs : info.status = .failed ∨ info.status = .cancelled ∨ info.status = .blocked) :
    pollForSignature resp = .rejected (rejectionMsg info) := by
  have hstep : stepOutcome (resp 0) = some (.rejected (rejectionMsg info)) := by
    rw [h0]
    obtain ⟨st, sub, sys, sm⟩ := info
    rcases hs with h | h | h <;> simp only at h <;> subst h <;> rfl
  unfold pollForSignature
  rw [show maxAttempts = 119 + 1 from rfl]
  unfold pollAux
  rw [hstep]

/-- Blocked transaction data of the C3 scenario. -/
def blockedInfo : TxInfo :=
  { status := .blocked, subStatus := some "POLICY_DENIED", systemMessages := none,
    signedMessages := none }

/-- Stream reporting the blocked POLICY_DENIED transaction. -/
def blockedResp : Nat → PollResponse :=
  fun _ => .ok blockedInfo

/-- C3 witness: a terminal blocked status with sub-status
POLICY_DENIED fails with the rejection error containing
POLICY_DENIED. -/
theorem pollForSignature_failure_statuses_wit :
    pollForSignature blockedResp = .rejected "Transaction blocked: POLICY_DENIED" := by
  have h := pollForSignature_failure_statuses blockedResp blockedInfo rfl (Or.inr (Or.inr rfl))
  rw [h]
  rfl

/-- Characterization of phase 1 of the monitor: the loop has produced
a result within a given number of polls exactly when one of those
polls reported a terminal status. -/
lemma monitorPhase1_isSome_iff (resp : Nat → TxPoll) :
    ∀ (fuel i : Nat) (hash : Option String),
      (monitorPhase1 resp fuel i hash).isSome = true ↔
        ∃ k, k < fuel ∧ isTerminalState (resp (i + k)).status = true := by
  intro fuel
  induction fuel with
  | zero =>
    intro i hash
    simp [monitorPhase1]
  | succ f ih =>
    intro i hash
    unfold monitorPhase1
    by_cases ht : isTerminalState (resp i).status = true
    · rw [if_pos ht]
      simp only [Option.isSome_some, true_iff]
      exact ⟨0, Nat.succ_pos f, by simpa using ht⟩
    · rw [if_neg ht]
      rw [ih (i + 1) (captureHash hash (resp i).txHash)]
      constructor
      · rintro ⟨k, hk, hterm⟩
        exact ⟨k + 1, by omega, by rw [show i + (k + 1) = i + 1 + k by omega]; exact hterm⟩
      · rintro ⟨k, hk, hterm⟩
        cases k with
        | zero => exact absurd (by simpa using hterm) ht
        | succ j =>
          exact ⟨j, by omega, by rw [show i + 1 + j = i + (j + 1) by omega]; exact hterm⟩

/-- C4 counterexample: no poll budget bounds phase 1 of the monitor —
for every candidate attempt ceiling there is a status sequence (the
constantly submitted one) on which the loop is still running after
that many polls, so a transaction that never reaches a terminal
custody state is polled forever and no timeout result exists. -/
theorem monitorPhase1_unbounded_cex :
    ¬ ∃ budget : Nat, ∀ resp : Nat → TxPoll,
      (monitorPhase1 resp budget 0 none).isSome = true := by
  rintro ⟨b, hb⟩
  have h := hb (fun _ => ⟨.submitted, none⟩)
  rw [monitorPhase1_isSome_iff] at h
  obtain ⟨k, _, hk⟩ := h
  simp [isTerminalState] at hk

/-- C4 amended: phase 1 of the monitor enforces no attempt ceiling —
it terminates within n polls exactly when one of the first n polled
statuses is terminal, and polls indefinitely otherwise. -/
theorem monitorPhase1_terminates_iff_terminal (resp : Nat → TxPoll) (n : Nat) :
    (monitorPhase1 resp n 0 none).isSome = true ↔
      ∃ k, k < n ∧ isTerminalState (resp k).status = true := by
  simpa using monitorPhase1_isSome_iff resp n 0 none

/-- Non-terminal poll responses make the loop continue. -/
lemma stepOutcome_none_of_nonTerminal (r : PollResponse) (h : nonTerminalResp r = true) :
    stepOutcome r = none := by
  cases r with
  | fetchError d => rfl
  | ok info =>
    have hterm : isTerminalState info.status = false := by
      simpa [nonTerminalResp] using h
    obtain ⟨st, sub, sys, sm⟩ := info
    cases st <;> first | rfl | (exfalso; simp [isTerminalState] at hterm)

/-- When every watched iteration continues, the polling loop consumes
its whole fuel and times out. -/
lemma pollAux_all_continue (resp : Nat → PollResponse) :
    ∀ (fuel i : Nat), (∀ k, i ≤ k → k < i + fuel → stepOutcome (resp k) = none) →
      pollAux resp fuel i = (.timeout timeoutSeconds, i + fuel) := by
  intro fuel
  induction fuel with
  | zero => intro i _; rfl
  | succ f ih =>
    intro i h
    unfold pollAux
    rw [h i (Nat.le_refl i) (by omega)]
    rw [ih (i + 1) (fun k hk1 hk2 => h k (by omega) (by omega))]
    rw [show i + 1 + f = i + (f + 1) by omega]

/-- C5: on a status sequence that never reaches a terminal state, the
signing poll performs exactly its bounded budget of 120 attempts at
the 5 second interval and then fails with the timeout naming the 600
second elapsed bound; being a total function of the first 120
responses, it never hangs past the budget and never returns a
success. -/
theorem pollForSignature_timeout_budget (resp : Nat → PollResponse)
    (h : ∀ k, k < 120 → nonTerminalResp (resp k) = true) :
    pollForSignature resp = .timeout 600 ∧ pollAttemptCount resp = 120 := by
  have hall : ∀ k, 0 ≤ k → k < 0 + maxAttempts → stepOutcome (resp k) = none := by
    intro k _ hk
    exact stepOutcome_none_of_nonTerminal _ (h k (by simpa [maxAttempts] using hk))
  have hp := pollAux_all_continue resp maxAttempts 0 hall
  constructor
  · unfold pollForSignature
    rw [hp]
    rfl
  · unfold pollAttemptCount
    rw [hp]
    rfl

/-- Stream of constantly pending polls. -/
def pendingResp : Nat → PollResponse := fun _ => .ok pendingTx

/-- C5 witness: the timeout theorem evaluated on the constantly
pending stream. -/
theorem pollForSignature_timeout_budget_wit :
    pollForSignature pendingResp = .timeout 600 ∧ pollAttemptCount pendingResp = 120 :=
  pollForSignature_timeout_budget pendingResp (by decide)

/-- Streams whose iterations decide identically produce identical
polling runs. -/
lemma pollAux_congr (r1 r2 : Nat → PollResponse)
    (hstep : ∀ j, stepOutcome (r1 j) = stepOutcome (r2 j)) :
    ∀ (fuel i : Nat), pollAux r1 fuel i = pollAux r2 fuel i := by
  intro fuel
  induction fuel with
  | zero => intro i; rfl
  | succ f ih =>
    intro i
    unfold pollAux
    rw [hstep i]
    cases h2 : stepOutcome (r2 i) with
    | some o => rfl
    | none => exact ih (i + 1)

/-- C6: a transient fetch error at any poll iteration neither aborts
the loop nor is surfaced — the run is identical, in outcome and in
attempts consumed, to the run in which that iteration observed an
ordinary pending status, so errors and non-terminal statuses share
the one 120-attempt budget. -/
theorem pollForSignature_transient_continue (resp : Nat → PollResponse) (k : Nat) (d : String)
    (h : resp k = .fetchError d) :
    pollForSignature resp = pollForSignature (Function.update resp k (.ok pendingTx)) ∧
      pollAttemptCount resp = pollAttemptCount (Function.update resp k (.ok pendingTx)) := by
  have hstep : ∀ j, stepOutcome (resp j)
      = stepOutcome (Function.update resp k (.ok pendingTx) j) := by
    intro j
    by_cases hj : j = k
    · subst hj
      rw [h, Function.update_same]
      rfl
    · rw [Function.update_noteq hj]
  have hp := pollAux_congr _ _ hstep maxAttempts 0
  exact ⟨congrArg (fun p => p.1) hp, congrArg (fun p => p.2) hp⟩

/-- Stream whose first poll throws a network error and then stays
pending. -/
def transientResp : Nat → PollResponse :=
  fun i => if i = 0 then .fetchError "ECONNRESET" else .ok pendingTx

/-- C6 witness: the transient-error theorem evaluated on a stream
whose first fetch fails. -/
theorem pollForSignature_transient_continue_wit :
    pollForSignature transientResp
        = pollForSignature (Function.update transientResp 0 (.ok pendingTx)) ∧
      pollAttemptCount transientResp
        = pollAttemptCount (Function.update transientResp 0 (.ok pendingTx)) :=
  pollForSignature_transient_continue transientResp 0 "ECONNRESET" rfl

/-- C7: once phase 2 sees the receipt mined, confirmations is computed
as the current chain height minus the mined height plus one; in
particular a receipt mined at height 100 with current height 100 and
one required confirmation yields a monitor result whose confirmations
equal 1. -/
theorem monitorPhase2_confirmations_formula (txId : String) (st : TStatus) (h : String)
    (w : Nat) (receipt : ChainReceipt) (cur : Int) :
    (monitorPhase2 txId st h w (.mined receipt cur)).confirmations
        = some (cur - receipt.blockNumber + 1) ∧
      monitorPhase2 "tx-1" .completed "0xhash" 1 (.mined ⟨100⟩ 100)
        = ⟨"tx-1", .completed, some "0xhash", some 100, some 1, none⟩ := by
  constructor
  · rfl
  · rfl

/-- Lookup distributes over an append whose left part misses the key. -/
lemma lookup_append_of_none {α β : Type} [BEq α] (l l2 : List (α × β)) (k : α)
    (h : List.lookup k l = none) : List.lookup k (l ++ l2) = List.lookup k l2 := by
  induction l with
  | nil => rfl
  | cons a t ih =>
    obtain ⟨a1, a2⟩ := a
    simp only [List.lookup, List.cons_append] at h ⊢
    cases hk : (k == a1) with
    | true => rw [hk] at h; exact Option.noConfusion h
    | false => rw [hk] at h; exact ih h

/-- Source builder and spec-worded descriptor agree on every domain. -/
lemma synthesized_eq_spec (d : TypedDataDomain) :
    synthesizedDomainType d = specDomainDescriptor d := by
  obtain ⟨n, v, c, vc, s⟩ := d
  cases n <;> cases v <;> cases c <;> cases vc <;> cases s <;> rfl

/-- C8: when the type schema has no explicit EIP712Domain descriptor,
the built envelope carries a synthesized descriptor containing exactly
the populated domain fields, in the fixed order name, version,
chainId, verifyingContract, salt, with absent fields omitted and never
defaulted. -/
theorem buildTypedDataObject_synthesizes_domain (d : TypedDataDomain)
    (types : List (String × List TypedDataField)) (msg : HlMessage)
    (h : types.lookup "EIP712Domain" = none) :
    ((buildTypedDataObject d types msg).types).lookup "EIP712Domain"
      = some (specDomainDescriptor d) := by
  unfold buildTypedDataObject
  simp only [h, Option.isSome_none, Bool.false_eq_true, if_false]
  rw [lookup_append_of_none types _ _ h]
  simp [List.lookup, synthesized_eq_spec d]

/-- C8 witness: a domain supplying only name and chainId synthesizes
exactly the two-element descriptor of the spec scenario. -/
theorem buildTypedDataObject_synthesizes_domain_wit :
    ((buildTypedDataObject ⟨some "Exchange", none, some 1337, none, none⟩
        [("Agent", [⟨"source", "string"⟩])] ⟨none⟩).types).lookup "EIP712Domain"
      = some [⟨"name", "string"⟩, ⟨"chainId", "uint256"⟩] := by
  have h := buildTypedDataObject_synthesizes_domain ⟨some "Exchange", none, some 1337, none, none⟩
    [("Agent", [⟨"source", "string"⟩])] ⟨none⟩ (by decide)
  rw [h]
  rfl

/-- Check that an annotator result is a returned label rather than a
thrown error. -/
def isOkNote : Except String String → Bool
  | .ok _ => true
  | .error _ => false

/-- Message shape on which the annotator dereferences the first entry
of an empty orders array. -/
def badOrderShape (m : HlMessage) : Bool :=
  match m.action with
  | some a => a.type == some "order" && a.orders == some ([] : List HlOrder)
  | none => false

/-- C9 counterexample: on a message whose action has type order and a
present but empty orders array, the annotator indexes the first order
(undefined) and reading its members throws, so the annotator is not
total. -/
theorem generateTransactionNote_throws_cex :
    generateTransactionNote ⟨some "Exchange", none, some 1337, none, none⟩
      ⟨some ⟨some "order", some [], none, none⟩⟩ = .error orderIndexError := by
  rfl

/-- C9 amended: for every domain and every message except the
empty-orders order shape, the annotator returns a label without
throwing, and with no recognizable action it falls back to the generic
label naming the domain. -/
theorem generateTransactionNote_total (d : TypedDataDomain) (m : HlMessage)
    (h : badOrderShape m = false) :
    isOkNote (generateTransactionNote d m) = true ∧
      (m.action = none →
        generateTransactionNote d m
          = .ok ("HL EIP-712 signature: " ++ orDefaultStr d.name "Unknown")) := by
  obtain ⟨act⟩ := m
  cases act with
  | none => exact ⟨rfl, fun _ => rfl⟩
  | some a =>
    refine ⟨?_, by intro hn; cases hn⟩
    unfold generateTransactionNote
    dsimp only
    split
    · rename_i hcond
      split
      · rename_i hhead
        exfalso
        rw [Bool.and_eq_true] at hcond
        obtain ⟨hty, hsome⟩ := hcond
        cases hors : a.orders with
        | none => rw [hors] at hsome; cases hsome
        | some l =>
          cases l with
          | nil =>
            have hbad : badOrderShape ⟨some a⟩ = true := by
              simp [badOrderShape, hty, hors]
            rw [h] at hbad
            cases hbad
          | cons o t =>
            rw [hors] at hhead
            simp at hhead
      · rfl
    · split
      · rfl
      · rfl

/-- C9 witness: the amended statement evaluated at a message with no
action, producing the generic fallback label. -/
theorem generateTransactionNote_total_wit :
    isOkNote (generateTransactionNote ⟨some "Exchange", none, some 1337, none, none⟩ ⟨none⟩)
        = true ∧
      ((⟨none⟩ : HlMessage).action = none →
        generateTransactionNote ⟨some "Exchange", none, some 1337, none, none⟩ ⟨none⟩
          = .ok ("HL EIP-712 signature: " ++ orDefaultStr (some "Exchange") "Unknown")) :=
  generateTransactionNote_total ⟨some "Exchange", none, some 1337, none, none⟩ ⟨none⟩ (by decide)

/-- A falsy cached address always issues a fresh query. -/
lemma getAddress_queries_when_falsy (vid : String) (st : SignerState) (q : AddrQueryResult)
    (h : truthyOpt st.address = false) : (getAddress vid st q).queried = true := by
  unfold getAddress
  rw [h]
  simp only [Bool.false_eq_true, if_false]
  cases q with
  | failure m => rfl
  | success data =>
    obtain ⟨addrs⟩ := data
    cases addrs with
    | none => rfl
    | some l =>
      cases l with
      | nil => rfl
      | cons e t =>
        dsimp only
        split
        · rfl
        · rfl

/-- C10: every successful getAddress call returns a non-empty address,
and after any failed resolution (query error, zero addresses, or an
empty first address) the cached address is left falsy — never a
usable empty value — so the next call issues a fresh address query
instead of returning the earlier failure. -/
theorem getAddress_cache_invariant (vid : String) (st : SignerState) (q : AddrQueryResult) :
    (∀ a, (getAddress vid st q).outcome = .ok a → a ≠ "") ∧
      (∀ e, (getAddress vid st q).outcome = .error e →
        truthyOpt (getAddress vid st q).state.address = false ∧
          ∀ q2, (getAddress vid ((getAddress vid st q).state) q2).queried = true) := by
  by_cases hst : truthyOpt st.address = true
  · have hres : getAddress vid st q = ⟨.ok (jsOr st.address), st, false⟩ := by
      unfold getAddress
      rw [if_pos hst]
    rw [hres]
    constructor
    · intro a ha
      cases ha
      cases hadr : st.address with
      | none => rw [hadr] at hst; cases hst
      | some s0 =>
        rw [hadr] at hst
        have : s0 ≠ "" := by simpa [truthyOpt] using hst
        simpa [jsOr, hadr] using this
    · intro e he
      cases he
  · have hst2 : truthyOpt st.address = false := by
      cases hb : truthyOpt st.address with
      | true => exact absurd hb hst
      | false => rfl
    have hq : ∀ q2, (getAddress vid st q2).queried = true :=
      fun q2 => getAddress_queries_when_falsy vid st q2 hst2
    unfold getAddress
    rw [hst2]
    simp only [Bool.false_eq_true, if_false]
    cases q with
    | failure m =>
      refine ⟨fun a ha => Except.noConfusion ha, fun e he => ⟨hst2, hq⟩⟩
    | success data =>
      obtain ⟨addrs⟩ := data
      cases addrs with
      | none => exact ⟨fun a ha => Except.noConfusion ha, fun e he => ⟨hst2, hq⟩⟩
      | some l =>
        cases l with
        | nil => exact ⟨fun a ha => Except.noConfusion ha, fun e he => ⟨hst2, hq⟩⟩
        | cons entry t =>
          dsimp only
          by_cases he2 : truthyOpt entry.address = true
          · rw [if_pos he2]
            constructor
            · intro a ha
              cases ha
              cases hadr : entry.address with
              | none => rw [hadr] at he2; cases he2
              | some s0 =>
                rw [hadr] at he2
                have : s0 ≠ "" := by simpa [truthyOpt] using he2
                simpa [jsOr, hadr] using this
            · intro e he
              cases he
          · have he3 : truthyOpt entry.address = false := by
              cases hb : truthyOpt entry.address with
              | true => exact absurd hb he2
              | false => rfl
            rw [if_neg (by rw [he3]; exact Bool.false_ne_true)]
            refine ⟨fun a ha => Except.noConfusion ha, fun e he => ⟨he3, ?_⟩⟩
            exact fun q2 => getAddress_queries_when_falsy vid ⟨entry.address⟩ q2 he3

/-- Query whose first address is present but empty. -/
def badAddrQuery : AddrQueryResult := .success ⟨some [⟨some ""⟩]⟩

/-- Query returning a usable address. -/
def goodAddrQuery : AddrQueryResult := .success ⟨some [⟨some "0xAbCd"⟩]⟩

/-- C10 witness: after a resolution that found an empty first address,
the cache is falsy and the next call issues a fresh query. -/
theorem getAddress_cache_invariant_wit :
    truthyOpt ((getAddress "7" ⟨none⟩ badAddrQuery).state.address) = false ∧
      (getAddress "7" ((getAddress "7" ⟨none⟩ badAddrQuery).state) goodAddrQuery).queried
        = true := by
  have h := (getAddress_cache_invariant "7" ⟨none⟩ badAddrQuery).2
    (wrapAddrError (emptyAddrMsg "7")) rfl
  exact ⟨h.1, h.2 goodAddrQuery⟩

end FbCustody
